import Mathlib

/-!
# Verification of the YooBudget frontend budget-cycle core

This file gives a shallow embedding, in Lean 4, of the domain logic of the
YooBudget React-Native frontend, and proves (or refutes) the specification
claims about it.

The embedded pieces are:

* the budget-ratio slider redistribution (`handleNeedsChange`,
  `handleWantsChange`, `handleSavingsChange` in `src/app/register.tsx`),
  including a faithful model of IEEE-754 binary64 ("double") arithmetic for
  the two floating-point operations the handlers perform, since exact
  agreement with the specified rounding formula is itself under scrutiny;
* the allocation/progress computation of the home screen
  (`spentByCategory`, `displayAllocations` and the render-time
  `savings`/`progress` values in `src/app/(tabs)/index.tsx`);
* the `NO_MAIN_INCOME` handling of the spending service
  (`getCurrentCycleExpenses` in the spending service file) and its consumers
  (`fetchRecurringExpenses`, `fetchViewCycle` in the home screen);
* the income/expense creation form validation (`handleSubmit` in
  `src/app/modal.tsx` and its variants), with JavaScript `parseFloat`
  modelled as an oracle `String → Option ℚ` (`none` plays the role of `NaN`,
  and the JS comparison `NaN <= 0` evaluating to `false` is modelled by
  `jsNumLE`);
* the server-side `setMainIncome` mutation, which is not part of the
  frontend sources and is therefore modelled from the spec.

JavaScript numbers are IEEE-754 binary64 values.  Where a claim is only
about the *shape* of a computation (guards, clamping, which rows are
produced) we model numbers by exact rationals, which is the standard
shallow-embedding choice.  Where a claim asserts bit-exact agreement with a
rounding formula (claim C2) we model the floating-point operations
faithfully: `f64pos p q` computes the mantissa/exponent pair of the binary64
value nearest to `p / q` (round to nearest, ties to even), using only
integer arithmetic so that concrete instances evaluate in the kernel.
-/

namespace YooBudget

/-! ## Binary64 model (integer arithmetic only) -/

/-- Floor of the binary logarithm, by fuel-based structural recursion
(`log2F f n` is correct whenever `1 ≤ n ≤ f`). -/
def log2F : ℕ → ℕ → ℕ
  | 0, _ => 0
  | f + 1, n => if n ≤ 1 then 0 else log2F f (n / 2) + 1

/-- Floor of the binary logarithm of a positive natural number. -/
def log2 (n : ℕ) : ℕ := log2F n n

/-- For positive `p`, `q`, the unique `e` with `2 ^ e ≤ p / q < 2 ^ (e + 1)`,
computed by integer comparison. -/
def dyExp (p q : ℕ) : ℤ :=
  let a := log2 p
  let b := log2 q
  if 2 ^ a * q ≤ 2 ^ b * p then (a : ℤ) - b else (a : ℤ) - b - 1

/-- Round `p / q` (for `q > 0`) to the nearest integer, ties to even.
Integer division on `ℤ` is Euclidean, which is floor division for a
positive divisor, so `p % q` is the nonnegative remainder. -/
def rndNE (p q : ℤ) : ℤ :=
  if 2 * (p % q) < q then p / q
  else if q < 2 * (p % q) then p / q + 1
  else if (p / q) % 2 = 0 then p / q else p / q + 1

/-- Mantissa/exponent pair `(m, s)` of the binary64 value nearest to `p / q`
(for positive `p`, `q` in the normal range): the value is `m * 2 ^ s` with
`2 ^ 52 ≤ m ≤ 2 ^ 53`. -/
def f64pos (p q : ℕ) : ℤ × ℤ :=
  if dyExp p q - 52 ≤ 0 then
    (rndNE ((p : ℤ) * 2 ^ (52 - dyExp p q).toNat) (q : ℤ), dyExp p q - 52)
  else (rndNE (p : ℤ) ((q : ℤ) * 2 ^ (dyExp p q - 52).toNat), dyExp p q - 52)

/-- JavaScript `Math.round` (round half toward `+∞`) of a dyadic value
`m * 2 ^ s`, i.e. `⌊m * 2 ^ s + 1 / 2⌋`, in integer arithmetic. -/
def jsRoundDy (md : ℤ × ℤ) : ℤ :=
  if 0 ≤ md.2 then md.1 * 2 ^ md.2.toNat
  else (2 * md.1 + 2 ^ (-md.2).toNat) / (2 ^ ((-md.2).toNat + 1))

/-- The binary64 product of the exactly-representable integer `R` with the
nonnegative double `m * 2 ^ s` (IEEE multiplication: the exact product,
rounded once to the nearest double). -/
def mulF64 (R : ℕ) (md : ℤ × ℤ) : ℤ × ℤ :=
  if R = 0 ∨ md.1 = 0 then (0, 0)
  else if md.2 ≤ 0 then f64pos (R * md.1.toNat) (2 ^ (-md.2).toNat)
  else f64pos (R * md.1.toNat * 2 ^ md.2.toNat) 1

/-- The rational value of a dyadic mantissa/exponent pair. -/
def dyVal (md : ℤ × ℤ) : ℚ := (md.1 : ℚ) * (2 : ℚ) ^ md.2

/-- `Math.round(remaining * (B / (B + C)))` exactly as the handlers in
`src/app/register.tsx` evaluate it in binary64 arithmetic: one rounded
division `B / (B + C)`, one rounded multiplication by `remaining`, then
`Math.round`.  The embedding is used on the nonnegative domain established
by the sliders (`0 ≤ R, B, C`). -/
def codeNewB (R B C : ℤ) : ℤ :=
  if B = 0 then 0
  else if R = 0 then 0
  else jsRoundDy (mulF64 R.toNat (f64pos B.toNat (B + C).toNat))

/-! ## The percentage triple and the slider handlers -/

/-- The needs/wants/savings percentage triple held in the registration
screen state. -/
structure Triple where
  needs : ℤ
  wants : ℤ
  savings : ℤ
  deriving DecidableEq, Repr

/-- Which slider was moved. -/
inductive Field where
  | needs
  | wants
  | savings
  deriving DecidableEq, Repr

/-- `handleNeedsChange` from `src/app/register.tsx` (lines 34–58): the needs
slider moved to `v`; the remaining budget is redistributed over wants and
savings proportionally (`codeNewB`), with savings taken as the exact
complement; if wants and savings are both zero the remainder is split by
floor division.  The slider passes integer steps in `[0, 100]`, so
`Math.round(value)` is the identity and `v` is taken as an integer. -/
def handleNeedsChange (t : Triple) (v : ℤ) : Triple :=
  let remaining := 100 - v
  if 0 < t.wants + t.savings ∧ 0 ≤ remaining then
    let newWants := codeNewB remaining t.wants t.savings
    { needs := v, wants := newWants, savings := remaining - newWants }
  else if 0 ≤ remaining then
    { needs := v, wants := remaining / 2,
      savings := remaining - remaining / 2 }
  else t

/-- `handleWantsChange` from `src/app/register.tsx` (lines 60–84): the wants
slider moved to `v`; needs is rounded proportionally, savings is the exact
complement. -/
def handleWantsChange (t : Triple) (v : ℤ) : Triple :=
  let remaining := 100 - v
  if 0 < t.needs + t.savings ∧ 0 ≤ remaining then
    let newNeeds := codeNewB remaining t.needs t.savings
    { needs := newNeeds, wants := v, savings := remaining - newNeeds }
  else if 0 ≤ remaining then
    { needs := remaining / 2, wants := v,
      savings := remaining - remaining / 2 }
  else t

/-- `handleSavingsChange` from `src/app/register.tsx` (lines 86–110): the
savings slider moved to `v`; needs is rounded proportionally, wants is the
exact complement. -/
def handleSavingsChange (t : Triple) (v : ℤ) : Triple :=
  let remaining := 100 - v
  if 0 < t.needs + t.wants ∧ 0 ≤ remaining then
    let newNeeds := codeNewB remaining t.needs t.wants
    { needs := newNeeds, wants := remaining - newNeeds, savings := v }
  else if 0 ≤ remaining then
    { needs := remaining / 2, wants := remaining - remaining / 2,
      savings := v }
  else t

/-- The ratio-adjustment operation of the spec (`adjust(triple, field, v)`),
dispatching to the three slider handlers. -/
def adjust (t : Triple) (f : Field) (v : ℤ) : Triple :=
  match f with
  | .needs => handleNeedsChange t v
  | .wants => handleWantsChange t v
  | .savings => handleSavingsChange t v

/-- Round half up of `R * B / (B + C)` (resp. `⌊R / 2⌋` when `B + C = 0`),
stated in exact integer arithmetic: `⌊x + 1/2⌋ = ⌊(2 R B + T) / (2 T)⌋`. -/
def specNewB (R B C : ℤ) : ℤ :=
  if 0 < B + C then (2 * (R * B) + (B + C)) / (2 * (B + C))
  else R / 2

/-- The redistribution formula of spec §4.1, written from the words of the
spec (exact rational arithmetic, `round` = round half up, `floor`-split when
the other two fields sum to zero, second field always the exact
complement). -/
def specAdjust (t : Triple) (f : Field) (v : ℤ) : Triple :=
  let remaining := 100 - v
  match f with
  | .needs =>
      let newB := specNewB remaining t.wants t.savings
      { needs := v, wants := newB, savings := remaining - newB }
  | .wants =>
      let newB := specNewB remaining t.needs t.savings
      { needs := newB, wants := v, savings := remaining - newB }
  | .savings =>
      let newB := specNewB remaining t.needs t.wants
      { needs := newB, wants := remaining - newB, savings := v }

/-- The exact value `R * B / (B + C)` is an exact half-integer (the rounding
boundary case at which binary64 evaluation can land on the other side of
the half). -/
def tieAt (R B C : ℤ) : Prop :=
  0 < B + C ∧ (2 * (R * B) + (B + C)) % (2 * (B + C)) = 0

instance (R B C : ℤ) : Decidable (tieAt R B C) :=
  inferInstanceAs (Decidable (_ ∧ _))

/-- The first of the two unchanged fields: the one the handler rounds
(wants for the needs slider, needs for the other two). -/
def otherB (t : Triple) (f : Field) : ℤ :=
  match f with
  | .needs => t.wants
  | .wants => t.needs
  | .savings => t.needs

/-- The second of the two unchanged fields: the one computed as the exact
complement. -/
def otherC (t : Triple) (f : Field) : ℤ :=
  match f with
  | .needs => t.savings
  | .wants => t.savings
  | .savings => t.wants

/-! ## Home-screen allocations (`src/app/(tabs)/index.tsx`, second document) -/

/-- JavaScript `Math.round` on exact rationals (round half toward `+∞`). -/
def jsRoundQ (x : ℚ) : ℤ := ⌊x + 1 / 2⌋

/-- The budget ratio `{needs, wants, savings}` stored on the user. -/
structure BudgetRatio where
  needs : ℤ
  wants : ℤ
  savings : ℤ
  deriving DecidableEq, Repr

/-- An expense record (`Spending` in the spending service file):
`spendFrom` and `expenseType` are kept as raw strings because the runtime
guards compare them against string literals. -/
structure Spending where
  id : String
  name : String
  amount : ℚ
  category : String
  note : Option String := none
  spendFrom : String
  expenseType : String
  payCycle : Option String := none
  nextPaymentDate : Option String := none
  createdAt : Option String := none
  deriving DecidableEq, Repr

/-- The per-category spent totals accumulated by `spentByCategory`. -/
structure SpentRec where
  needs : ℚ
  wants : ℚ
  savings : ℚ
  deriving DecidableEq, Repr

/-- One iteration of the `forEach` in `spentByCategory`
(index.tsx lines 605–612): add the amount to the bucket named by
`spendFrom`; anything else is ignored. -/
def spentStep (acc : SpentRec) (e : Spending) : SpentRec :=
  if e.spendFrom = "needs" then { acc with needs := acc.needs + e.amount }
  else if e.spendFrom = "wants" then { acc with wants := acc.wants + e.amount }
  else if e.spendFrom = "savings" then { acc with savings := acc.savings + e.amount }
  else acc

/-- `spentByCategory` (index.tsx lines 598–615). -/
def spentByCategory (expenses : List Spending) : SpentRec :=
  expenses.foldl spentStep ⟨0, 0, 0⟩

/-- One allocation row of the home screen. -/
structure Allocation where
  name : String
  percentage : ℤ
  budget : ℚ
  spent : ℚ
  color : String
  accent : String
  deriving DecidableEq, Repr

/-- JS `x || y` for an optionally-present number: `undefined` and `0` are
falsy, so both fall through to the default. -/
def jsOrNum (x : Option ℚ) (d : ℚ) : ℚ :=
  match x with
  | none => d
  | some v => if v = 0 then d else v

/-- Reading `spentByCategory[key]`: an unknown key reads as `undefined`. -/
def spentLookup (s : SpentRec) (key : String) : Option ℚ :=
  if key = "needs" then some s.needs
  else if key = "wants" then some s.wants
  else if key = "savings" then some s.savings
  else none

/-- `displayAllocations` (index.tsx lines 617–661): if allocation rows were
supplied externally, refresh their spent figures (with the JS `||` falsy
fallback exactly as written); otherwise build the three rows from the
user's budget ratio when it is set and the cycle income is positive, and
return the empty list in every other case.  In this screen `setAllocations`
is never called, so the first branch is unreachable at runtime and the
externally-supplied list is always `[]`. -/
def displayAllocations (allocations : List Allocation) (budgetRatio : Option BudgetRatio)
    (income : ℚ) (spent : SpentRec) : List Allocation :=
  if allocations ≠ [] then
    allocations.map (fun a =>
      { a with spent := jsOrNum (spentLookup spent a.name.toLower) a.spent })
  else
    match budgetRatio with
    | some r =>
        if 0 < income then
          [{ name := "Needs", percentage := r.needs,
             budget := (jsRoundQ (income * r.needs / 100) : ℚ), spent := spent.needs,
             color := "#E9F8EF", accent := "#21C17A" },
           { name := "Wants", percentage := r.wants,
             budget := (jsRoundQ (income * r.wants / 100) : ℚ), spent := spent.wants,
             color := "#E6F0FF", accent := "#3383FF" },
           { name := "Savings", percentage := r.savings,
             budget := (jsRoundQ (income * r.savings / 100) : ℚ), spent := spent.savings,
             color := "#F1E7FF", accent := "#9B51E0" }]
        else []
    | none => []

/-- The render-time `savings` value of an allocation row (index.tsx line
826): `budget - spent`, never clamped. -/
def allocationRemaining (a : Allocation) : ℚ := a.budget - a.spent

/-- The render-time progress percent of an allocation row (index.tsx lines
827–833): `0` when the budget is zero (the division sits in the other
branch of the conditional and is never evaluated), otherwise
`min(100, Math.round(spent / budget * 100))`. -/
def allocationProgress (a : Allocation) : ℤ :=
  if a.budget = 0 then 0
  else min 100 (jsRoundQ (a.spent / a.budget * 100))

/-! ## NO_MAIN_INCOME handling (spending service and home screen) -/

/-- JS truthiness of an optional string: absent and empty are falsy. -/
def truthyStr (s : Option String) : Bool :=
  match s with
  | none => false
  | some v => if v = "" then false else true

/-- JS `a || b` on an optional string with a string default. -/
def jsOrStr (a : Option String) (b : String) : String :=
  match a with
  | none => b
  | some v => if v = "" then b else v

/-- Whether the second character list is an initial segment of the first
argument read against the second; auxiliary for the substring test. -/
def charsBegin : List Char → List Char → Bool
  | [], _ => true
  | _ :: _, [] => false
  | a :: pa, b :: lb => a == b && charsBegin pa lb

/-- Whether the pattern occurs somewhere in the list (JS
`String.prototype.includes`). -/
def charsHave : List Char → List Char → Bool
  | [], pat => charsBegin pat []
  | l@(_ :: tl), pat => charsBegin pat l || charsHave tl pat

/-- JS `s.includes(pat)`. -/
def strIncl (s pat : String) : Bool := charsHave s.data pat.data

/-- The parsed JSON body of the current-cycle expenses response.  Both the
success shape (`CurrentCycleResponse`) and the error shape
(`SpendingError`) are projections of it; absent fields are `none`. -/
structure CycleBody where
  cycleStart : String := ""
  cycleEnd : String := ""
  expenses : Option (List Spending) := none
  error : Option String := none
  message : Option String := none
  deriving DecidableEq, Repr

/-- The value `getCurrentCycleExpenses` resolves with (spending service
file, lines 71–125), as a pure function of the HTTP outcome: on a non-ok
response whose effective error message contains `NO_MAIN_INCOME` or
`main income`, it resolves with the tagged empty state instead of
throwing; other failures throw (modelled as `.error`).  The catch-side
recheck at lines 109–121 applies the same test to thrown messages, so the
composite response-processing behaviour is this single function. -/
def getCurrentCycleExpenses (ok : Bool) (body : CycleBody) : Except String CycleBody :=
  if ok then .ok body
  else
    if strIncl (jsOrStr body.error (jsOrStr body.message "Failed to get current cycle expenses"))
        "NO_MAIN_INCOME" ||
       strIncl (jsOrStr body.error (jsOrStr body.message "Failed to get current cycle expenses"))
        "main income" then
      .ok { cycleStart := "", cycleEnd := "", expenses := some [],
            error := some "NO_MAIN_INCOME" }
    else .error (jsOrStr body.error (jsOrStr body.message "Failed to get current cycle expenses"))

/-- The home-screen recurring-expense state:
`(recurringExpenses, allExpenses, totalRecurringExpenses)`. -/
structure RecurringState where
  recurringExpenses : List Spending
  allExpenses : List Spending
  totalRecurringExpenses : ℚ
  deriving DecidableEq, Repr

/-- The state `fetchRecurringExpenses` (index.tsx lines 537–572) leaves
after a resolved cycle response: the empty state when `error` is truthy or
`expenses` is missing, otherwise all expenses, the recurring subset, and
its reduced total. -/
def fetchRecurringExpensesState (resp : CycleBody) : RecurringState :=
  if truthyStr resp.error || resp.expenses.isNone then ⟨[], [], 0⟩
  else
    { recurringExpenses := (resp.expenses.getD []).filter
        (fun e => e.expenseType = "recurring")
      allExpenses := resp.expenses.getD []
      totalRecurringExpenses :=
        ((resp.expenses.getD []).filter (fun e => e.expenseType = "recurring")).foldl
          (fun s e => s + e.amount) 0 }

/-- The view-cycle response (`ViewCycleResponse` in
`src/services/income.ts`). -/
structure ViewCycleResp where
  cycleStart : String := ""
  cycleEnd : String := ""
  payCycle : String := ""
  remainingDays : ℤ := 0
  totalIncome : ℚ := 0
  error : Option String := none
  deriving DecidableEq, Repr

/-- `fetchViewCycle` (index.tsx lines 518–535): a resolved response with a
truthy `error` field is stored as `null`; otherwise the cycle is stored. -/
def fetchViewCycleState (cycleData : ViewCycleResp) : Option ViewCycleResp :=
  if truthyStr cycleData.error then none else some cycleData

/-- `summary.hasMainIncome` (index.tsx line 592):
`viewCycle !== null && !viewCycle.error`.  The render shows the
"No Main Income Set" empty-state card (never a retry) exactly when this is
`false`. -/
def hasMainIncome (viewCycle : Option ViewCycleResp) : Bool :=
  match viewCycle with
  | none => false
  | some v => !truthyStr v.error

/-! ## Creation forms (`src/app/modal.tsx` and its variants) -/

/-- The income pay cycles of `src/services/income.ts`. -/
inductive PayCycle where
  | weekly
  | biweekly
  | monthly
  | oneTime
  deriving DecidableEq, Repr

/-- JS `String.prototype.trim`: strip whitespace from both ends, by
structural recursion on the character list (so concrete instances evaluate
in the kernel). -/
def strTrim (s : String) : String :=
  ⟨((s.data.dropWhile Char.isWhitespace).reverse.dropWhile Char.isWhitespace).reverse⟩

/-- JS `x <= c` where `x` may be `NaN` (modelled `none`): every comparison
with `NaN` is false. -/
def jsNumLE (x : Option ℚ) (c : ℚ) : Bool :=
  match x with
  | none => false
  | some v => v ≤ c

/-- JS `s || undefined`. -/
def strOrUndef (s : String) : Option String :=
  if s = "" then none else some s

/-- JS `lastPayDate && nextPayDate <= lastPayDate` on an optional date. -/
def jsLeOptDate (a : ℤ) (b : Option ℤ) : Bool :=
  match b with
  | none => false
  | some l => a ≤ l

/-- A demonstration `parseFloat` oracle used by the concrete witnesses:
`"100"` and `"42"` parse, everything else (e.g. `"abc"`) is `NaN`. -/
def pfDemo : String → Option ℚ :=
  fun s => if s = "100" then some 100 else if s = "42" then some 42 else none

/-- The income form state of `src/app/modal.tsx`.  Dates are day indices:
the code truncates both sides of every date comparison to local midnight
with `setHours(0,0,0,0)`, so a date is exactly its day. -/
structure IncomeForm where
  name : String
  amount : String
  payCycle : PayCycle
  nextPayDate : ℤ
  isMain : Bool
  deriving DecidableEq, Repr

/-- The payload passed to `IncomeService.createIncome`. -/
structure CreateIncomeData where
  name : Option String
  amount : Option ℚ
  payCycle : PayCycle
  nextPayDate : ℤ
  isMain : Bool
  deriving DecidableEq, Repr

/-- `handleSubmit` of `src/app/modal.tsx` (income branch, lines 194–248) as
a pure function from the form state to either the alert message shown (no
mutation issued) or the exact `CreateIncomeData` passed to `createIncome`.
`pf` is the ambient JavaScript `parseFloat`; `none` stands for `NaN`. -/
def handleSubmitIncome (pf : String → Option ℚ) (st : IncomeForm) (today : ℤ) :
    Except String CreateIncomeData :=
  if st.name = "" ∨ strTrim st.name = "" then .error "Please enter a income name"
  else if st.amount = "" ∨ jsNumLE (pf st.amount) 0 then .error "Please enter a valid amount"
  else if st.payCycle ≠ .oneTime ∧ st.nextPayDate < today then
    .error "Next pay date cannot be in the past"
  else if st.payCycle = .oneTime ∧ st.isMain then
    .error "One-time income cannot be set as main income"
  else
    .ok { name := strOrUndef (strTrim st.name), amount := pf st.amount,
          payCycle := st.payCycle, nextPayDate := st.nextPayDate,
          isMain := if st.payCycle = .oneTime then false else st.isMain }

/-- The income form state of the second add-income modal
(`src/unnamed/part_001`). -/
structure IncomeFormV2 where
  incomeType : String
  name : String
  amount : String
  frequency : String
  isFirstPayDay : Bool
  nextPayDate : ℤ
  lastPayDate : Option ℤ
  oneTimeDate : ℤ
  deriving DecidableEq, Repr

/-- The payload of the second add-income modal. -/
inductive CreateIncomeV2 where
  | recurring (name : Option String) (amount : Option ℚ) (frequency : String)
      (isFirstPayDay : Bool) (nextPayDate : ℤ) (lastPayDate : Option ℤ)
  | oneTime (name : Option String) (amount : Option ℚ) (oneTimeDate : ℤ)
  deriving DecidableEq, Repr

/-- `handleSubmit` of `src/unnamed/part_001` (lines 176–238). -/
def handleSubmitIncomeV2 (pf : String → Option ℚ) (st : IncomeFormV2) (today : ℤ) :
    Except String CreateIncomeV2 :=
  if st.amount = "" ∨ jsNumLE (pf st.amount) 0 then .error "Please enter a valid amount"
  else if st.incomeType = "recurring" ∧ st.nextPayDate < today then
    .error "Next pay date cannot be in the past"
  else if st.incomeType = "recurring" ∧ ¬ st.isFirstPayDay ∧ st.lastPayDate.isNone then
    .error "Please select last pay date"
  else if st.incomeType = "recurring" ∧ ¬ st.isFirstPayDay ∧
      jsLeOptDate st.nextPayDate st.lastPayDate then
    .error "Next pay date must be later than last pay date"
  else if st.incomeType = "recurring" then
    .ok (.recurring (strOrUndef st.name) (pf st.amount) st.frequency st.isFirstPayDay
      st.nextPayDate (if st.isFirstPayDay then none else st.lastPayDate))
  else .ok (.oneTime (strOrUndef st.name) (pf st.amount) st.oneTimeDate)

/-- The expense form state of the full add-expense modal (the second
document concatenated into `src/app/register.tsx`). -/
structure ExpenseForm where
  name : String
  amount : String
  spendFrom : String
  category : String
  expenseType : String
  note : String
  expensePayCycle : String
  nextPaymentDate : ℤ
  expenseCreatedAt : ℤ
  deriving DecidableEq, Repr

/-- The payload passed to `SpendingService.createSpending` by the full
add-expense modal. -/
structure CreateSpendingData where
  name : String
  amount : Option ℚ
  category : String
  spendFrom : String
  expenseType : String
  note : Option String
  payCycle : Option String
  nextPaymentDate : Option ℤ
  createdAt : Option ℤ
  deriving DecidableEq, Repr

/-- `handleSubmit` of the full add-expense modal (expense branch).  The
source also tests `!nextPaymentDate`, but a `Date` object is always truthy,
so that branch cannot fire and is omitted. -/
def handleSubmitExpense (pf : String → Option ℚ) (st : ExpenseForm) (today : ℤ) :
    Except String CreateSpendingData :=
  if st.name = "" ∨ strTrim st.name = "" then .error "Please enter a expense name"
  else if st.amount = "" ∨ jsNumLE (pf st.amount) 0 then .error "Please enter a valid amount"
  else if st.spendFrom = "" then .error "Please select a payment source"
  else if st.category = "" then .error "Please select a category"
  else if st.expenseType = "recurring" ∧ st.expensePayCycle = "" then
    .error "Please select a pay cycle for recurring expenses"
  else if st.expenseType = "recurring" ∧ st.nextPaymentDate < today then
    .error "Next payment date cannot be in the past"
  else
    .ok { name := strTrim st.name, amount := pf st.amount, category := st.category,
          spendFrom := st.spendFrom, expenseType := st.expenseType,
          note := strOrUndef (strTrim st.note),
          payCycle := if st.expenseType = "one-time" then none else some st.expensePayCycle,
          nextPaymentDate :=
            if st.expenseType = "one-time" then none else some st.nextPaymentDate,
          createdAt :=
            if st.expenseType = "one-time" then some st.expenseCreatedAt else none }

/-! ## setMainIncome (modelled from the spec) -/

/-- An income record as held by the backend income store. -/
structure IncomeRec where
  id : String
  name : Option String := none
  amount : ℚ := 0
  payCycle : PayCycle := .monthly
  nextPayDate : ℤ := 0
  isMain : Bool := false
  deriving DecidableEq, Repr

/-- Modelled from the spec: the server-side handler behind
`POST /api/income/set-main/:id` is not part of the frontend sources — the
client (`setMainIncome` in `src/services/income.ts`, lines 135–168) only
issues the request.  Spec §4.3/§6 require an atomic demote-then-promote:
when the target exists, every income's `isMain` flag is rewritten in one
step to "this is the target"; otherwise the call fails. -/
def setMainIncome (incomes : List IncomeRec) (targetId : String) :
    Option (List IncomeRec) :=
  if incomes.any (fun i => i.id = targetId) then
    some (incomes.map (fun i => { i with isMain := decide (i.id = targetId) }))
  else none

end YooBudget

namespace YooBudget

/-! ## Correctness of the binary64 model -/

theorem log2F_spec : ∀ f n, 1 ≤ n → n ≤ f → 2 ^ log2F f n ≤ n ∧ n < 2 ^ (log2F f n + 1) := by
  intro f
  induction f with
  | zero => intro n h1 h2; omega
  | succ f ih =>
    intro n h1 h2
    by_cases hn : n ≤ 1
    · have hn1 : n = 1 := le_antisymm hn h1
      subst hn1
      simp [log2F]
    · have h2' : n / 2 ≤ f := by omega
      have h1' : 1 ≤ n / 2 := by omega
      obtain ⟨l, u⟩ := ih (n / 2) h1' h2'
      simp only [log2F, if_neg hn]
      constructor
      · have : 2 ^ (log2F f (n / 2) + 1) = 2 * 2 ^ log2F f (n / 2) := by ring
        omega
      · have : 2 ^ (log2F f (n / 2) + 1 + 1) = 2 * 2 ^ (log2F f (n / 2) + 1) := by ring
        omega

theorem log2_spec {n : ℕ} (h : 1 ≤ n) : 2 ^ log2 n ≤ n ∧ n < 2 ^ (log2 n + 1) :=
  log2F_spec n n h le_rfl

/-- Auxiliary cast fact: `(2 : ℚ) ^ (a : ℤ) = ((2 ^ a : ℕ) : ℚ)` for `a : ℕ`. -/
theorem qpow_natCast (a : ℕ) : (2 : ℚ) ^ (a : ℤ) = ((2 ^ a : ℕ) : ℚ) := by
  rw [zpow_natCast]
  push_cast
  ring

theorem qzpow_neg_nat (k : ℕ) : (2 : ℚ) ^ (-(k : ℤ)) = 1 / 2 ^ k := by
  rw [zpow_neg, one_div, zpow_natCast]

theorem dyExp_spec {p q : ℕ} (hp : 1 ≤ p) (hq : 1 ≤ q) :
    (2 : ℚ) ^ dyExp p q ≤ (p : ℚ) / q ∧ (p : ℚ) / q < 2 ^ (dyExp p q + 1) := by
  obtain ⟨hp1, hp2⟩ := log2_spec hp
  obtain ⟨hq1, hq2⟩ := log2_spec hq
  have hq0 : (0 : ℚ) < q := by exact_mod_cast hq
  have hp0 : (0 : ℚ) < p := by exact_mod_cast hp
  set a := log2 p with ha
  set b := log2 q with hb
  have h2a : (0 : ℚ) < 2 ^ (a : ℤ) := zpow_pos (by norm_num) _
  have h2b : (0 : ℚ) < 2 ^ (b : ℤ) := zpow_pos (by norm_num) _
  have hp1' : (2 : ℚ) ^ (a : ℤ) ≤ p := by rw [qpow_natCast]; exact_mod_cast hp1
  have hp2' : (p : ℚ) < 2 ^ ((a : ℤ) + 1) := by
    have : ((a : ℤ) + 1) = ((a + 1 : ℕ) : ℤ) := by push_cast; ring
    rw [this, qpow_natCast]; exact_mod_cast hp2
  have hq1' : (2 : ℚ) ^ (b : ℤ) ≤ q := by rw [qpow_natCast]; exact_mod_cast hq1
  have hq2' : (q : ℚ) < 2 ^ ((b : ℤ) + 1) := by
    have : ((b : ℤ) + 1) = ((b + 1 : ℕ) : ℤ) := by push_cast; ring
    rw [this, qpow_natCast]; exact_mod_cast hq2
  unfold dyExp
  simp only [← ha, ← hb]
  split_ifs with hcond
  · have hcond' : (2 : ℚ) ^ (a : ℤ) * q ≤ 2 ^ (b : ℤ) * p := by
      rw [qpow_natCast, qpow_natCast]; exact_mod_cast hcond
    constructor
    · rw [zpow_sub₀ (by norm_num : (2 : ℚ) ≠ 0), div_le_div_iff₀ h2b hq0]
      calc (2 : ℚ) ^ (a : ℤ) * q ≤ 2 ^ (b : ℤ) * p := hcond'
        _ = p * 2 ^ (b : ℤ) := by ring
    · rw [show (a : ℤ) - b + 1 = ((a : ℤ) + 1) - b by ring,
        zpow_sub₀ (by norm_num : (2 : ℚ) ≠ 0), div_lt_div_iff₀ hq0 h2b]
      calc (p : ℚ) * 2 ^ (b : ℤ) < 2 ^ ((a : ℤ) + 1) * 2 ^ (b : ℤ) :=
            mul_lt_mul_of_pos_right hp2' h2b
        _ ≤ 2 ^ ((a : ℤ) + 1) * q :=
            mul_le_mul_of_nonneg_left hq1' (le_of_lt (zpow_pos (by norm_num) _))
  · push_neg at hcond
    have hcond' : (2 : ℚ) ^ (b : ℤ) * p < 2 ^ (a : ℤ) * q := by
      rw [qpow_natCast, qpow_natCast]; exact_mod_cast hcond
    constructor
    · rw [show (a : ℤ) - b - 1 = (a : ℤ) - ((b : ℤ) + 1) by ring,
        zpow_sub₀ (by norm_num : (2 : ℚ) ≠ 0),
        div_le_div_iff₀ (zpow_pos (by norm_num) _) hq0]
      calc (2 : ℚ) ^ (a : ℤ) * q ≤ p * q :=
            mul_le_mul_of_nonneg_right hp1' (le_of_lt hq0)
        _ ≤ p * 2 ^ ((b : ℤ) + 1) :=
            mul_le_mul_of_nonneg_left (le_of_lt hq2') (le_of_lt hp0)
    · rw [show (a : ℤ) - b - 1 + 1 = (a : ℤ) - b by ring,
        zpow_sub₀ (by norm_num : (2 : ℚ) ≠ 0), div_lt_div_iff₀ hq0 h2b]
      calc (p : ℚ) * 2 ^ (b : ℤ) = 2 ^ (b : ℤ) * p := by ring
        _ < 2 ^ (a : ℤ) * q := hcond'

theorem floor_intCast_div (a b : ℤ) (hb : 0 < b) : ⌊(a : ℚ) / (b : ℚ)⌋ = a / b := by
  obtain ⟨n, rfl⟩ : ∃ n : ℕ, b = (n : ℤ) := ⟨b.toNat, (Int.toNat_of_nonneg hb.le).symm⟩
  rw [show (((n : ℤ) : ℚ)) = (n : ℚ) by push_cast; ring]
  exact Rat.floor_intCast_div_natCast a n

theorem rndNE_nonneg {p q : ℤ} (hp : 0 ≤ p) (hq : 0 < q) : 0 ≤ rndNE p q := by
  unfold rndNE
  have h := Int.ediv_nonneg hp hq.le
  split_ifs <;> omega

theorem rndNE_abs {p q : ℤ} (hq : 0 < q) : |(rndNE p q : ℚ) - (p : ℚ) / q| ≤ 1 / 2 := by
  have hq0 : (0 : ℚ) < q := by exact_mod_cast hq
  have hqne : q ≠ 0 := hq.ne'
  have hr0 : 0 ≤ p % q := Int.emod_nonneg p hqne
  have hrq : p % q < q := Int.emod_lt_of_pos p hq
  have hr0' : (0 : ℚ) ≤ (p % q : ℤ) := by exact_mod_cast hr0
  have hrq' : ((p % q : ℤ) : ℚ) < q := by exact_mod_cast hrq
  have hid : q * (p / q) + p % q = p := Int.ediv_add_emod p q
  have hid' : ((q * (p / q) + p % q : ℤ) : ℚ) = (p : ℚ) := by
    exact_mod_cast congrArg (fun z : ℤ => (z : ℚ)) hid
  have hpq : (p : ℚ) / q = ((p / q : ℤ) : ℚ) + ((p % q : ℤ) : ℚ) / q := by
    field_simp
    push_cast at hid' ⊢
    linarith
  unfold rndNE
  split_ifs with h1 h2 h3
  · have h1' : ((p % q : ℤ) : ℚ) * 2 < q := by exact_mod_cast (by omega : (p % q) * 2 < q)
    rw [hpq, show ((p / q : ℤ) : ℚ) - (((p / q : ℤ) : ℚ) + ((p % q : ℤ) : ℚ) / q)
        = -(((p % q : ℤ) : ℚ) / q) by ring, abs_neg,
      abs_of_nonneg (div_nonneg hr0' hq0.le), div_le_div_iff₀ hq0 two_pos]
    linarith
  · have h2' : (q : ℚ) ≤ 2 * ((p % q : ℤ) : ℚ) := by exact_mod_cast (by omega : q ≤ 2 * (p % q))
    rw [hpq, show (((p / q : ℤ) + 1 : ℤ) : ℚ) - (((p / q : ℤ) : ℚ) + ((p % q : ℤ) : ℚ) / q)
        = ((q : ℚ) - ((p % q : ℤ) : ℚ)) / q by push_cast; field_simp; ring,
      abs_of_nonneg (div_nonneg (by linarith) hq0.le), div_le_div_iff₀ hq0 two_pos]
    linarith
  · have htie' : (q : ℚ) = 2 * ((p % q : ℤ) : ℚ) := by exact_mod_cast (by omega : q = 2 * (p % q))
    rw [hpq, show ((p / q : ℤ) : ℚ) - (((p / q : ℤ) : ℚ) + ((p % q : ℤ) : ℚ) / q)
        = -(((p % q : ℤ) : ℚ) / q) by ring, abs_neg,
      abs_of_nonneg (div_nonneg hr0' hq0.le), div_le_div_iff₀ hq0 two_pos]
    linarith
  · have htie' : (q : ℚ) = 2 * ((p % q : ℤ) : ℚ) := by exact_mod_cast (by omega : q = 2 * (p % q))
    rw [hpq, show (((p / q : ℤ) + 1 : ℤ) : ℚ) - (((p / q : ℤ) : ℚ) + ((p % q : ℤ) : ℚ) / q)
        = ((q : ℚ) - ((p % q : ℤ) : ℚ)) / q by push_cast; field_simp; ring,
      abs_of_nonneg (div_nonneg (by linarith) hq0.le), div_le_div_iff₀ hq0 two_pos]
    linarith

theorem dyExp_le_of_lt {p q : ℕ} (hp : 1 ≤ p) (hq : 1 ≤ q) {E : ℤ}
    (h : (p : ℚ) / q < 2 ^ (E + 1)) : dyExp p q ≤ E := by
  by_contra hc
  push_neg at hc
  have h1 := (dyExp_spec hp hq).1
  have h2 : (2 : ℚ) ^ (E + 1) ≤ 2 ^ dyExp p q :=
    zpow_le_zpow_right₀ one_le_two (by omega)
  linarith

theorem f64pos_snd (p q : ℕ) : (f64pos p q).2 = dyExp p q - 52 := by
  unfold f64pos
  split_ifs <;> rfl

theorem f64pos_err {p q : ℕ} (hp : 1 ≤ p) (hq : 1 ≤ q) (hE : dyExp p q ≤ 52) :
    |dyVal (f64pos p q) - (p : ℚ) / q| ≤ (2 : ℚ) ^ (dyExp p q - 53) ∧
      0 ≤ dyVal (f64pos p q) := by
  have hs : dyExp p q - 52 ≤ 0 := by omega
  have hq0 : (0 : ℚ) < (q : ℚ) := by exact_mod_cast hq
  have hqz : (0 : ℤ) < (q : ℤ) := by exact_mod_cast hq
  set e := dyExp p q with he
  set t := (52 - e).toNat with ht
  have htn : (t : ℤ) = 52 - e := Int.toNat_of_nonneg (by omega)
  have hval : dyVal (f64pos p q) = (rndNE ((p : ℤ) * 2 ^ t) (q : ℤ) : ℚ) * (2 : ℚ) ^ (e - 52) := by
    unfold dyVal f64pos
    rw [← he, if_pos hs]
  have key := rndNE_abs (p := (p : ℤ) * 2 ^ t) (q := (q : ℤ)) hqz
  have harg : (((p : ℤ) * 2 ^ t : ℤ) : ℚ) / ((q : ℤ) : ℚ) = ((p : ℚ) / q) * (2 : ℚ) ^ (t : ℤ) := by
    push_cast
    rw [zpow_natCast]
    ring
  rw [harg] at key
  have hts : (2 : ℚ) ^ (t : ℤ) * (2 : ℚ) ^ (e - 52) = 1 := by
    rw [← zpow_add₀ (by norm_num : (2 : ℚ) ≠ 0), show (t : ℤ) + (e - 52) = 0 by omega]
    exact zpow_zero 2
  have hpos52 : (0 : ℚ) < (2 : ℚ) ^ (e - 52) := zpow_pos (by norm_num) _
  constructor
  · have expand : dyVal (f64pos p q) - (p : ℚ) / q =
        ((rndNE ((p : ℤ) * 2 ^ t) (q : ℤ) : ℚ) - ((p : ℚ) / q) * (2 : ℚ) ^ (t : ℤ)) *
          (2 : ℚ) ^ (e - 52) := by
      rw [hval, sub_mul, mul_assoc, hts, mul_one]
    rw [expand, abs_mul, abs_of_pos hpos52]
    calc |(rndNE ((p : ℤ) * 2 ^ t) (q : ℤ) : ℚ) - ((p : ℚ) / q) * (2 : ℚ) ^ (t : ℤ)| *
          (2 : ℚ) ^ (e - 52)
        ≤ (1 / 2) * (2 : ℚ) ^ (e - 52) := mul_le_mul_of_nonneg_right key hpos52.le
      _ = (2 : ℚ) ^ (e - 53) := by
          rw [show e - 53 = (-1) + (e - 52) by ring,
            zpow_add₀ (by norm_num : (2 : ℚ) ≠ 0)]
          norm_num
  · rw [hval]
    have hm : 0 ≤ rndNE ((p : ℤ) * 2 ^ t) (q : ℤ) :=
      rndNE_nonneg (by positivity) hqz
    have : (0 : ℚ) ≤ (rndNE ((p : ℤ) * 2 ^ t) (q : ℤ) : ℚ) := by exact_mod_cast hm
    positivity

theorem f64pos_err_of_lt {p q : ℕ} (hp : 1 ≤ p) (hq : 1 ≤ q) {E : ℤ} (hE : E ≤ 52)
    (h : (p : ℚ) / q < 2 ^ (E + 1)) :
    |dyVal (f64pos p q) - (p : ℚ) / q| ≤ (2 : ℚ) ^ (E - 53) := by
  have hle := dyExp_le_of_lt hp hq h
  exact le_trans (f64pos_err hp hq (by omega)).1
    (zpow_le_zpow_right₀ one_le_two (by omega))

theorem jsRoundDy_eq (md : ℤ × ℤ) : jsRoundDy md = ⌊dyVal md + 1 / 2⌋ := by
  obtain ⟨m, s⟩ := md
  unfold jsRoundDy dyVal
  dsimp only
  split_ifs with hs
  · have hsn : ((s.toNat : ℕ) : ℤ) = s := Int.toNat_of_nonneg hs
    have hcast : ((m * 2 ^ s.toNat : ℤ) : ℚ) = (m : ℚ) * (2 : ℚ) ^ s := by
      push_cast
      rw [← zpow_natCast (2 : ℚ) s.toNat, hsn]
    have hhalf : ⌊(1 : ℚ) / 2⌋ = 0 := by
      rw [Int.floor_eq_zero_iff]
      constructor <;> norm_num
    rw [← hcast, add_comm, Int.floor_add_int, hhalf]
    ring
  · push_neg at hs
    set t := (-s).toNat with ht
    have htn : (t : ℤ) = -s := Int.toNat_of_nonneg (by omega)
    have hb : (0 : ℤ) < 2 ^ (t + 1) := by positivity
    have hzpos : (0 : ℚ) < (2 : ℚ) ^ (t : ℤ) := zpow_pos (by norm_num) _
    have hzs : (2 : ℚ) ^ s * (2 : ℚ) ^ (t : ℤ) = 1 := by
      rw [← zpow_add₀ (by norm_num : (2 : ℚ) ≠ 0), show s + (t : ℤ) = 0 by omega]
      exact zpow_zero 2
    have hsz : (2 : ℚ) ^ s = ((2 : ℚ) ^ (t : ℤ))⁻¹ := eq_inv_of_mul_eq_one_left hzs
    have harg : (m : ℚ) * (2 : ℚ) ^ s + 1 / 2 =
        ((2 * m + 2 ^ t : ℤ) : ℚ) / ((2 ^ (t + 1) : ℤ) : ℚ) := by
      push_cast
      rw [pow_succ, ← zpow_natCast (2 : ℚ) t, hsz]
      field_simp
      ring
    rw [harg, floor_intCast_div _ _ hb]

set_option maxHeartbeats 800000 in
theorem codeNewB_agrees_nat (r b c : ℕ) (hr1 : 1 ≤ r) (hr : r ≤ 100) (hb1 : 1 ≤ b)
    (ht100 : b + c ≤ 100)
    (htie : ¬ (2 * ((b : ℤ) + c)) ∣ (2 * ((r : ℤ) * b) + ((b : ℤ) + c))) :
    jsRoundDy (mulF64 r (f64pos b (b + c))) =
      ⌊((r * b : ℕ) : ℚ) / ((b + c : ℕ) : ℚ) + 1 / 2⌋ := by
  have htn : 1 ≤ b + c := by omega
  have hpos : (0 : ℚ) < ((b + c : ℕ) : ℚ) := by exact_mod_cast htn
  have hbq1 : (1 : ℚ) ≤ (b : ℚ) := by exact_mod_cast hb1
  have hrq : (r : ℚ) ≤ 100 := by exact_mod_cast hr
  have hrq1 : (1 : ℚ) ≤ (r : ℚ) := by exact_mod_cast hr1
  have htq : ((b + c : ℕ) : ℚ) ≤ 100 := by exact_mod_cast ht100
  set md := f64pos b (b + c) with hmd
  set ρ := dyVal md with hrho
  clear_value md ρ
  have hratio_le : (b : ℚ) / ((b + c : ℕ) : ℚ) ≤ 1 := by
    rw [div_le_one hpos]
    exact_mod_cast Nat.le_add_right b c
  have hratio_ge : 1 / 100 ≤ (b : ℚ) / ((b + c : ℕ) : ℚ) := by
    rw [div_le_div_iff₀ (by norm_num) hpos]
    nlinarith
  have hratioLT : (b : ℚ) / ((b + c : ℕ) : ℚ) < 2 ^ ((0 : ℤ) + 1) := by
    have : (2 : ℚ) ^ ((0 : ℤ) + 1) = 2 := by norm_num
    linarith [this]
  have he0 : dyExp b (b + c) ≤ 0 := dyExp_le_of_lt hb1 htn hratioLT
  have herr1 : |ρ - (b : ℚ) / ((b + c : ℕ) : ℚ)| ≤ (2 : ℚ) ^ ((0 : ℤ) - 53) := by
    rw [hrho, hmd]
    exact f64pos_err_of_lt hb1 htn (by norm_num) hratioLT
  have h53 : (2 : ℚ) ^ ((0 : ℤ) - 53) = 1 / 2 ^ 53 := by
    rw [show (0 : ℤ) - 53 = -((53 : ℕ) : ℤ) by norm_num]
    exact qzpow_neg_nat 53
  have habs1 := abs_le.mp herr1
  have hrho_pos : 0 < ρ := by
    rw [h53] at habs1
    nlinarith [habs1.1]
  have hrho_le : ρ ≤ 1 + 1 / 2 ^ 53 := by
    rw [h53] at habs1
    linarith [habs1.2]
  have hm1 : 1 ≤ md.1 := by
    by_contra h
    push_neg at h
    have h2p : (0 : ℚ) < (2 : ℚ) ^ md.2 := zpow_pos (by norm_num) _
    have hm0 : (md.1 : ℚ) ≤ 0 := by exact_mod_cast (by omega : md.1 ≤ 0)
    have : ρ ≤ 0 := by
      rw [hrho]
      unfold dyVal
      exact mul_nonpos_of_nonpos_of_nonneg hm0 h2p.le
    linarith
  have hs1 : md.2 ≤ 0 := by
    rw [hmd, f64pos_snd]
    omega
  have hmul : mulF64 r md = f64pos (r * md.1.toNat) (2 ^ (-md.2).toNat) := by
    unfold mulF64
    rw [if_neg (by push_neg; exact ⟨by omega, by omega⟩), if_pos hs1]
  have hmt : ((md.1.toNat : ℕ) : ℤ) = md.1 := Int.toNat_of_nonneg (by omega)
  have hmtq : ((md.1.toNat : ℕ) : ℚ) = (md.1 : ℚ) := by exact_mod_cast hmt
  have htn2 : (((-md.2).toNat : ℕ) : ℤ) = -md.2 := Int.toNat_of_nonneg (by omega)
  have hzz : (2 : ℚ) ^ md.2 * (2 : ℚ) ^ (((-md.2).toNat : ℕ) : ℤ) = 1 := by
    rw [← zpow_add₀ (by norm_num : (2 : ℚ) ≠ 0),
      show md.2 + (((-md.2).toNat : ℕ) : ℤ) = 0 by omega]
    exact zpow_zero 2
  have hfrac : ((r * md.1.toNat : ℕ) : ℚ) / ((2 ^ (-md.2).toNat : ℕ) : ℚ) = (r : ℚ) * ρ := by
    rw [hrho]
    unfold dyVal
    push_cast
    rw [← zpow_natCast (2 : ℚ) (-md.2).toNat, hmtq]
    rw [div_eq_iff (zpow_ne_zero _ (by norm_num : (2 : ℚ) ≠ 0))]
    calc (r : ℚ) * (md.1 : ℚ)
        = (r : ℚ) * ((md.1 : ℚ) * ((2 : ℚ) ^ md.2 * (2 : ℚ) ^ (((-md.2).toNat : ℕ) : ℤ))) := by
          rw [hzz, mul_one]
      _ = (r : ℚ) * ((md.1 : ℚ) * (2 : ℚ) ^ md.2) * (2 : ℚ) ^ (((-md.2).toNat : ℕ) : ℤ) := by
          ring
  have hub : ((r * md.1.toNat : ℕ) : ℚ) / ((2 ^ (-md.2).toNat : ℕ) : ℚ) < 2 ^ ((6 : ℤ) + 1) := by
    rw [hfrac]
    have h7 : (2 : ℚ) ^ ((6 : ℤ) + 1) = 128 := by
      rw [show (6 : ℤ) + 1 = ((7 : ℕ) : ℤ) by norm_num, zpow_natCast]
      norm_num
    rw [h7]
    nlinarith
  have herr2 : |dyVal (mulF64 r md) - (r : ℚ) * ρ| ≤ (2 : ℚ) ^ ((6 : ℤ) - 53) := by
    rw [hmul]
    have hmt1 : 1 ≤ md.1.toNat := by omega
    have h1r : 1 ≤ r * md.1.toNat := by
      calc 1 = 1 * 1 := by norm_num
        _ ≤ r * md.1.toNat := Nat.mul_le_mul hr1 hmt1
    have h1q : 1 ≤ 2 ^ (-md.2).toNat := Nat.one_le_two_pow
    have := f64pos_err_of_lt h1r h1q (by norm_num : (6 : ℤ) ≤ 52) hub
    rwa [hfrac] at this
  have herr3 : |(r : ℚ) * ρ - (r : ℚ) * ((b : ℚ) / ((b + c : ℕ) : ℚ))| ≤
      100 * (2 : ℚ) ^ ((0 : ℤ) - 53) := by
    rw [← mul_sub, abs_mul, abs_of_nonneg (by linarith : (0 : ℚ) ≤ (r : ℚ))]
    calc (r : ℚ) * |ρ - (b : ℚ) / ((b + c : ℕ) : ℚ)|
        ≤ 100 * |ρ - (b : ℚ) / ((b + c : ℕ) : ℚ)| :=
          mul_le_mul_of_nonneg_right hrq (abs_nonneg _)
      _ ≤ 100 * (2 : ℚ) ^ ((0 : ℤ) - 53) :=
          mul_le_mul_of_nonneg_left herr1 (by norm_num)
  have hXdef : ((r * b : ℕ) : ℚ) / ((b + c : ℕ) : ℚ) = (r : ℚ) * ((b : ℚ) / ((b + c : ℕ) : ℚ)) := by
    push_cast
    ring
  have h47 : (2 : ℚ) ^ ((6 : ℤ) - 53) = 1 / 2 ^ 47 := by
    rw [show (6 : ℤ) - 53 = -((47 : ℕ) : ℤ) by norm_num]
    exact qzpow_neg_nat 47
  rw [h47] at herr2
  rw [h53] at herr3
  have htot : |dyVal (mulF64 r md) - ((r * b : ℕ) : ℚ) / ((b + c : ℕ) : ℚ)| <
      1 / (2 * ((b + c : ℕ) : ℚ)) := by
    rw [hXdef]
    have htri : |dyVal (mulF64 r md) - (r : ℚ) * ((b : ℚ) / ((b + c : ℕ) : ℚ))|
        ≤ |dyVal (mulF64 r md) - (r : ℚ) * ρ| +
          |(r : ℚ) * ρ - (r : ℚ) * ((b : ℚ) / ((b + c : ℕ) : ℚ))| := abs_sub_le _ _ _
    have hnum : (1 : ℚ) / 2 ^ 47 + 100 * (1 / 2 ^ 53) < 1 / 200 := by norm_num
    have hlast : (1 : ℚ) / 200 ≤ 1 / (2 * ((b + c : ℕ) : ℚ)) := by
      rw [div_le_div_iff₀ (by norm_num) (by linarith)]
      nlinarith
    calc |dyVal (mulF64 r md) - (r : ℚ) * ((b : ℚ) / ((b + c : ℕ) : ℚ))|
        ≤ 1 / 2 ^ 47 + 100 * (1 / 2 ^ 53) := by linarith
      _ < 1 / 200 := hnum
      _ ≤ 1 / (2 * ((b + c : ℕ) : ℚ)) := hlast
  set N := 2 * ((r : ℤ) * b) + ((b : ℤ) + c) with hN
  set D := 2 * ((b : ℤ) + c) with hD
  clear_value N D
  have hD0 : (0 : ℤ) < D := by
    rw [hD]
    omega
  have hrem : N % D ≠ 0 := fun h => htie (Int.dvd_of_emod_eq_zero h)
  have hrem1 : 1 ≤ N % D := by
    have := Int.emod_nonneg N hD0.ne'
    omega
  have hremD : N % D ≤ D - 1 := by
    have := Int.emod_lt_of_pos N hD0
    omega
  have hid : D * (N / D) + N % D = N := Int.ediv_add_emod N D
  have hDq : (0 : ℚ) < (D : ℚ) := by exact_mod_cast hD0
  have hXhalf : ((r * b : ℕ) : ℚ) / ((b + c : ℕ) : ℚ) + 1 / 2 = (N : ℚ) / (D : ℚ) := by
    rw [hN, hD]
    push_cast
    field_simp
    ring
  have hfloorX : ⌊((r * b : ℕ) : ℚ) / ((b + c : ℕ) : ℚ) + 1 / 2⌋ = N / D := by
    rw [hXhalf]
    exact floor_intCast_div N D hD0
  have hNDsplit : (N : ℚ) / (D : ℚ) = ((N / D : ℤ) : ℚ) + ((N % D : ℤ) : ℚ) / (D : ℚ) := by
    have hid' : ((D * (N / D) + N % D : ℤ) : ℚ) = (N : ℚ) := by
      exact_mod_cast congrArg (fun z : ℤ => (z : ℚ)) hid
    field_simp
    push_cast at hid' ⊢
    linarith
  have hrem1q : (1 : ℚ) ≤ ((N % D : ℤ) : ℚ) := by exact_mod_cast hrem1
  have hremDq : ((N % D : ℤ) : ℚ) ≤ (D : ℚ) - 1 := by exact_mod_cast hremD
  have hDcast : (D : ℚ) = 2 * ((b + c : ℕ) : ℚ) := by
    rw [hD]
    push_cast
    ring
  have hlow : ((N / D : ℤ) : ℚ) + 1 / (D : ℚ) ≤
      ((r * b : ℕ) : ℚ) / ((b + c : ℕ) : ℚ) + 1 / 2 := by
    rw [hXhalf, hNDsplit]
    have h1 : 1 / (D : ℚ) ≤ ((N % D : ℤ) : ℚ) / (D : ℚ) := by gcongr
    linarith
  have hhigh : ((r * b : ℕ) : ℚ) / ((b + c : ℕ) : ℚ) + 1 / 2 ≤
      ((N / D : ℤ) : ℚ) + 1 - 1 / (D : ℚ) := by
    rw [hXhalf, hNDsplit]
    have h1 : ((N % D : ℤ) : ℚ) / (D : ℚ) ≤ ((D : ℚ) - 1) / (D : ℚ) := by gcongr
    have h2 : ((D : ℚ) - 1) / (D : ℚ) = 1 - 1 / (D : ℚ) := by field_simp
    linarith
  rw [← hDcast] at htot
  have habs := abs_lt.mp htot
  have hPlow : ((N / D : ℤ) : ℚ) < dyVal (mulF64 r md) + 1 / 2 := by linarith
  have hPhigh : dyVal (mulF64 r md) + 1 / 2 < ((N / D : ℤ) : ℚ) + 1 := by linarith
  rw [jsRoundDy_eq, hfloorX]
  rw [Int.floor_eq_iff]
  exact ⟨hPlow.le, by exact_mod_cast hPhigh⟩

theorem specNewB_eq_floor (R B C : ℤ) (hT : 0 < B + C) :
    specNewB R B C = ⌊((R * B : ℤ) : ℚ) / ((B + C : ℤ) : ℚ) + 1 / 2⌋ := by
  unfold specNewB
  rw [if_pos hT]
  have hD : (0 : ℤ) < 2 * (B + C) := by omega
  rw [← floor_intCast_div (2 * (R * B) + (B + C)) (2 * (B + C)) hD]
  congr 1
  have hTQ : ((B : ℚ) + (C : ℚ)) ≠ 0 := by
    have h0 : (0 : ℚ) < ((B + C : ℤ) : ℚ) := by exact_mod_cast hT
    push_cast at h0
    linarith
  push_cast
  field_simp
  ring

theorem codeNewB_eq_specNewB (R B C : ℤ) (hR0 : 0 ≤ R) (hR : R ≤ 100)
    (hB : 0 ≤ B) (hC : 0 ≤ C) (hT : 0 < B + C) (hT100 : B + C ≤ 100)
    (htie : ¬ tieAt R B C) :
    codeNewB R B C = specNewB R B C := by
  obtain ⟨r, rfl⟩ : ∃ n : ℕ, R = (n : ℤ) := ⟨R.toNat, (Int.toNat_of_nonneg hR0).symm⟩
  obtain ⟨b, rfl⟩ : ∃ n : ℕ, B = (n : ℤ) := ⟨B.toNat, (Int.toNat_of_nonneg hB).symm⟩
  obtain ⟨c, rfl⟩ : ∃ n : ℕ, C = (n : ℤ) := ⟨C.toNat, (Int.toNat_of_nonneg hC).symm⟩
  unfold codeNewB
  by_cases hb0 : (b : ℤ) = 0
  · rw [if_pos hb0]
    unfold specNewB
    rw [if_pos hT, hb0]
    simp only [mul_zero, zero_add]
    symm
    apply Int.ediv_eq_zero_of_lt <;> omega
  · by_cases hr0 : (r : ℤ) = 0
    · rw [if_neg hb0, if_pos hr0]
      unfold specNewB
      rw [if_pos hT, hr0]
      simp only [zero_mul, mul_zero, zero_add]
      symm
      apply Int.ediv_eq_zero_of_lt <;> omega
    · rw [if_neg hb0, if_neg hr0]
      rw [show ((b : ℤ) + (c : ℤ)) = ((b + c : ℕ) : ℤ) by push_cast; ring,
        Int.toNat_natCast, Int.toNat_natCast, Int.toNat_natCast]
      have hr1 : 1 ≤ r := by omega
      have hrb : r ≤ 100 := by omega
      have hb1 : 1 ≤ b := by omega
      have ht100' : b + c ≤ 100 := by omega
      have htie' : ¬ (2 * ((b : ℤ) + c)) ∣ (2 * ((r : ℤ) * b) + ((b : ℤ) + c)) := by
        intro hdvd
        exact htie ⟨hT, Int.emod_eq_zero_of_dvd hdvd⟩
      rw [codeNewB_agrees_nat r b c hr1 hrb hb1 ht100' htie']
      rw [specNewB_eq_floor _ _ _ hT]
      congr 2

/-! ## C1: the triple always sums to exactly 100 -/

/-- C1: for every starting triple of nonnegative integer percentages summing
to 100 and every integer `newValue ∈ [0, 100]`, the ratio-adjustment
operation returns a triple whose three fields sum to exactly 100. -/
theorem adjust_sum_eq_100 (t : Triple) (f : Field) (v : ℤ)
    (hn : 0 ≤ t.needs) (hw : 0 ≤ t.wants) (hs : 0 ≤ t.savings)
    (hsum : t.needs + t.wants + t.savings = 100)
    (hv0 : 0 ≤ v) (hv1 : v ≤ 100) :
    (adjust t f v).needs + (adjust t f v).wants + (adjust t f v).savings = 100 := by
  cases f <;>
    simp only [adjust, handleNeedsChange, handleWantsChange, handleSavingsChange] <;>
    split_ifs <;> (try dsimp only) <;> omega

/-- Witness for C1 at the concrete input `adjust({50,30,20}, needs, 70)`. -/
theorem adjust_sum_eq_100_witness :
    (adjust ⟨50, 30, 20⟩ Field.needs 70).needs +
      (adjust ⟨50, 30, 20⟩ Field.needs 70).wants +
      (adjust ⟨50, 30, 20⟩ Field.needs 70).savings = 100 :=
  adjust_sum_eq_100 ⟨50, 30, 20⟩ Field.needs 70 (by decide) (by decide)
    (by decide) (by decide) (by decide) (by decide)

/-! ## C2: agreement with the §4.1 redistribution formula -/

/-- C2 (counterexample): the code does not follow the §4.1 formula exactly.
At the valid triple `{needs 90, wants 7, savings 3}` with the needs slider
moved to 55, the exact formula gives `wants = round(45 · 7/10) = round(31.5)
= 32`, but the binary64 product `45 * (7/10)` evaluates to
`31.499999999999996`, so `Math.round` returns 31 and the code yields
`{55, 31, 14}` instead of `{55, 32, 13}`. -/
theorem adjust_ne_specAdjust_at_tie :
    adjust ⟨90, 7, 3⟩ Field.needs 55 = ⟨55, 31, 14⟩ ∧
      specAdjust ⟨90, 7, 3⟩ Field.needs 55 = ⟨55, 32, 13⟩ ∧
      adjust ⟨90, 7, 3⟩ Field.needs 55 ≠ specAdjust ⟨90, 7, 3⟩ Field.needs 55 := by
  refine ⟨by decide, by decide, by decide⟩

/-- C2 (amended): on every valid input whose exact redistribution value
`(100 - v) * B / (B + C)` is not an exact half-integer, the handlers agree
with the §4.1 formula exactly (changed field set to `v`, first other field
rounded half-up proportionally, second other field the exact complement,
floor-split when the other two fields sum to zero).  At exact half-integer
ties the double-precision product can land below the tie and round down;
there `newB` may be one less (and `newC` one more) than the formula says. -/
theorem adjust_eq_specAdjust_of_not_tie (t : Triple) (f : Field) (v : ℤ)
    (hn : 0 ≤ t.needs) (hw : 0 ≤ t.wants) (hs : 0 ≤ t.savings)
    (hsum : t.needs + t.wants + t.savings = 100)
    (hv0 : 0 ≤ v) (hv1 : v ≤ 100)
    (htie : ¬ tieAt (100 - v) (otherB t f) (otherC t f)) :
    adjust t f v = specAdjust t f v := by
  cases f
  case needs =>
    simp only [otherB, otherC] at htie
    simp only [adjust, specAdjust, handleNeedsChange]
    by_cases hT : 0 < t.wants + t.savings
    · rw [if_pos ⟨hT, by omega⟩,
        codeNewB_eq_specNewB (100 - v) t.wants t.savings (by omega) (by omega)
          hw hs hT (by omega) htie]
    · rw [if_neg (fun hc => hT hc.1), if_pos (by omega : (0 : ℤ) ≤ 100 - v)]
      unfold specNewB
      rw [if_neg hT]
  case wants =>
    simp only [otherB, otherC] at htie
    simp only [adjust, specAdjust, handleWantsChange]
    by_cases hT : 0 < t.needs + t.savings
    · rw [if_pos ⟨hT, by omega⟩,
        codeNewB_eq_specNewB (100 - v) t.needs t.savings (by omega) (by omega)
          hn hs hT (by omega) htie]
    · rw [if_neg (fun hc => hT hc.1), if_pos (by omega : (0 : ℤ) ≤ 100 - v)]
      unfold specNewB
      rw [if_neg hT]
  case savings =>
    simp only [otherB, otherC] at htie
    simp only [adjust, specAdjust, handleSavingsChange]
    by_cases hT : 0 < t.needs + t.wants
    · rw [if_pos ⟨hT, by omega⟩,
        codeNewB_eq_specNewB (100 - v) t.needs t.wants (by omega) (by omega)
          hn hw hT (by omega) htie]
    · rw [if_neg (fun hc => hT hc.1), if_pos (by omega : (0 : ℤ) ≤ 100 - v)]
      unfold specNewB
      rw [if_neg hT]

/-- Witness for the amended C2 at the spec's own examples: at
`adjust({50,30,20}, needs, 70)` (a non-tie input) the code equals the
formula and both give `{70, 18, 12}`; the zero-split example
`adjust({50,0,0}, needs, 40)` gives `{40, 30, 30}`. -/
theorem adjust_eq_specAdjust_witness :
    adjust ⟨50, 30, 20⟩ Field.needs 70 = specAdjust ⟨50, 30, 20⟩ Field.needs 70 ∧
      adjust ⟨50, 30, 20⟩ Field.needs 70 = ⟨70, 18, 12⟩ ∧
      adjust ⟨50, 0, 0⟩ Field.needs 40 = ⟨40, 30, 30⟩ :=
  ⟨adjust_eq_specAdjust_of_not_tie ⟨50, 30, 20⟩ Field.needs 70 (by decide) (by decide)
      (by decide) (by decide) (by decide) (by decide) (by decide),
    by decide, by decide⟩

/-! ## C3 -/

/-- C3: for every allocation row, the displayed progress percent is `0`
when the budget is zero (the guarded division is never evaluated, so there
is no divide-by-zero) and otherwise `min(100, round(spent / budget * 100))`;
the progress is always clamped to at most 100 and is nonnegative for
nonnegative inputs, while the displayed remaining value is the unclamped
`budget - spent`, which is negative exactly on overspend. -/
theorem allocationProgress_spec (a : Allocation) (hs : 0 ≤ a.spent) (hb : 0 ≤ a.budget) :
    (a.budget = 0 → allocationProgress a = 0) ∧
    (a.budget ≠ 0 → allocationProgress a = min 100 (jsRoundQ (a.spent / a.budget * 100))) ∧
    allocationProgress a ≤ 100 ∧
    0 ≤ allocationProgress a ∧
    allocationRemaining a = a.budget - a.spent ∧
    (a.budget < a.spent → allocationRemaining a < 0) := by
  refine ⟨?_, ?_, ?_, ?_, rfl, ?_⟩
  · intro h
    unfold allocationProgress
    rw [if_pos h]
  · intro h
    unfold allocationProgress
    rw [if_neg h]
  · unfold allocationProgress
    split_ifs with h
    · norm_num
    · exact min_le_left _ _
  · unfold allocationProgress
    split_ifs with h
    · norm_num
    · have hb' : 0 < a.budget := lt_of_le_of_ne hb (Ne.symm h)
      have hx : (0 : ℚ) ≤ a.spent / a.budget * 100 := by positivity
      have : 0 ≤ jsRoundQ (a.spent / a.budget * 100) := by
        unfold jsRoundQ
        rw [Int.floor_nonneg]
        linarith
      exact le_min (by norm_num) this
  · intro h
    unfold allocationRemaining
    linarith

/-- Witness for C3 at a concrete overspent row (budget 200, spent 250). -/
theorem allocationProgress_witness :
    (0 : ℚ) ≤ 250 ∧ (0 : ℚ) ≤ 200 ∧
    ((Allocation.mk "Needs" 50 200 250 "#E9F8EF" "#21C17A").budget ≠ 0 →
      allocationProgress (Allocation.mk "Needs" 50 200 250 "#E9F8EF" "#21C17A") =
        min 100 (jsRoundQ ((250 : ℚ) / 200 * 100))) ∧
    allocationRemaining (Allocation.mk "Needs" 50 200 250 "#E9F8EF" "#21C17A") < 0 := by
  refine ⟨by norm_num, by norm_num, ?_, ?_⟩
  · exact (allocationProgress_spec ⟨"Needs", 50, 200, 250, "#E9F8EF", "#21C17A"⟩
      (by norm_num) (by norm_num)).2.1
  · exact (allocationProgress_spec ⟨"Needs", 50, 200, 250, "#E9F8EF", "#21C17A"⟩
      (by norm_num) (by norm_num)).2.2.2.2.2 (by norm_num)

/-! ## C4 -/

/-- Helper for C4: the `spentByCategory` fold, with an arbitrary
accumulator, computes the per-category filtered sums. -/
theorem spentFold (l : List Spending) (acc : SpentRec) :
    l.foldl spentStep acc =
      ⟨acc.needs + ((l.filter (fun e => e.spendFrom = "needs")).map (fun e => e.amount)).sum,
       acc.wants + ((l.filter (fun e => e.spendFrom = "wants")).map (fun e => e.amount)).sum,
       acc.savings + ((l.filter (fun e => e.spendFrom = "savings")).map (fun e => e.amount)).sum⟩ := by
  induction l generalizing acc with
  | nil => simp
  | cons e tl ih =>
    simp only [List.foldl_cons, List.filter_cons, ih]
    unfold spentStep
    by_cases h1 : e.spendFrom = "needs"
    · simp [h1, SpentRec.mk.injEq]
      ring
    · by_cases h2 : e.spendFrom = "wants"
      · simp [h1, h2, SpentRec.mk.injEq]
        ring
      · by_cases h3 : e.spendFrom = "savings"
        · simp [h1, h2, h3, SpentRec.mk.injEq]
          ring
        · simp [h1, h2, h3]

/-- Helper for C4: `spentByCategory` returns, for each of needs, wants and
savings, the sum of `amount` over the expenses whose `spendFrom` equals
that category. -/
theorem spentByCategory_spec (l : List Spending) :
    spentByCategory l =
      ⟨((l.filter (fun e => e.spendFrom = "needs")).map (fun e => e.amount)).sum,
       ((l.filter (fun e => e.spendFrom = "wants")).map (fun e => e.amount)).sum,
       ((l.filter (fun e => e.spendFrom = "savings")).map (fun e => e.amount)).sum⟩ := by
  unfold spentByCategory
  rw [spentFold]
  simp

/-- C4: with a budget ratio set and positive cycle income, the allocation
computation yields exactly the three rows with
`budgetAmount = round(totalIncome * ratio / 100)` and `spentAmount` the sum
of `amount` over the supplied cycle expenses whose `spendFrom` equals the
category; the remaining amount rendered for each row is the unclamped
`budgetAmount - spentAmount` (which may be negative, see C3). -/
theorem displayAllocations_spec (r : BudgetRatio) (income : ℚ) (expenses : List Spending)
    (hinc : 0 < income) :
    displayAllocations [] (some r) income (spentByCategory expenses) =
      [{ name := "Needs", percentage := r.needs,
         budget := (jsRoundQ (income * r.needs / 100) : ℚ),
         spent := ((expenses.filter (fun e => e.spendFrom = "needs")).map
           (fun e => e.amount)).sum,
         color := "#E9F8EF", accent := "#21C17A" },
       { name := "Wants", percentage := r.wants,
         budget := (jsRoundQ (income * r.wants / 100) : ℚ),
         spent := ((expenses.filter (fun e => e.spendFrom = "wants")).map
           (fun e => e.amount)).sum,
         color := "#E6F0FF", accent := "#3383FF" },
       { name := "Savings", percentage := r.savings,
         budget := (jsRoundQ (income * r.savings / 100) : ℚ),
         spent := ((expenses.filter (fun e => e.spendFrom = "savings")).map
           (fun e => e.amount)).sum,
         color := "#F1E7FF", accent := "#9B51E0" }] ∧
    (∀ a ∈ displayAllocations [] (some r) income (spentByCategory expenses),
      allocationRemaining a = a.budget - a.spent) := by
  constructor
  · unfold displayAllocations
    rw [spentByCategory_spec]
    simp [hinc]
  · intro a _
    rfl

/-- Witness for C4 at income 5000, ratio 50/30/20, one needs expense. -/
theorem displayAllocations_spec_witness :
    (0 : ℚ) < 5000 ∧
    displayAllocations [] (some ⟨50, 30, 20⟩) 5000
        (spentByCategory [⟨"e1", "Rent", 1200, "Housing", none, "needs", "one-time",
          none, none, none⟩]) =
      [{ name := "Needs", percentage := 50, budget := (jsRoundQ ((5000 : ℚ) * 50 / 100) : ℚ),
         spent := 1200, color := "#E9F8EF", accent := "#21C17A" },
       { name := "Wants", percentage := 30, budget := (jsRoundQ ((5000 : ℚ) * 30 / 100) : ℚ),
         spent := 0, color := "#E6F0FF", accent := "#3383FF" },
       { name := "Savings", percentage := 20, budget := (jsRoundQ ((5000 : ℚ) * 20 / 100) : ℚ),
         spent := 0, color := "#F1E7FF", accent := "#9B51E0" }] := by
  refine ⟨by norm_num, ?_⟩
  rw [(displayAllocations_spec ⟨50, 30, 20⟩ 5000
    [⟨"e1", "Rent", 1200, "Housing", none, "needs", "one-time", none, none, none⟩]
    (by norm_num)).1]
  simp

/-! ## C10 -/

/-- C10: when no allocation rows were supplied externally, the allocation
computation returns the empty list whenever the cycle income is not
positive or no budget ratio is set — no rows at all are produced, not even
rows with a zero budget. -/
theorem displayAllocations_empty (ratioOpt : Option BudgetRatio) (income : ℚ)
    (spent : SpentRec) (h : ¬ 0 < income ∨ ratioOpt = none) :
    displayAllocations [] ratioOpt income spent = [] := by
  unfold displayAllocations
  rcases ratioOpt with _ | r
  · simp
  · rcases h with h | h
    · simp [h]
    · cases h

/-- Witness for C10 at zero income with a ratio set. -/
theorem displayAllocations_empty_witness :
    (¬ (0 : ℚ) < 0 ∨ (some (BudgetRatio.mk 50 30 20) : Option BudgetRatio) = none) ∧
    displayAllocations [] (some ⟨50, 30, 20⟩) 0 ⟨0, 0, 0⟩ = [] :=
  ⟨Or.inl (by norm_num),
    displayAllocations_empty (some ⟨50, 30, 20⟩) 0 ⟨0, 0, 0⟩ (Or.inl (by norm_num))⟩

/-! ## C5 -/

/-- C5: a `NO_MAIN_INCOME` error response is mapped by
`getCurrentCycleExpenses` to a resolved result value (empty cycle fields,
empty expense list, error tag `NO_MAIN_INCOME`) rather than a thrown
error, and the downstream consumers turn it into the displayable empty
state: `fetchRecurringExpenses` stores empty lists and a zero total, and
`fetchViewCycle` stores `null`, which renders the "No Main Income Set"
card (`hasMainIncome = false`) instead of retrying. -/
theorem noMainIncome_is_displayable_state (body : CycleBody)
    (herr : body.error = some "NO_MAIN_INCOME") :
    getCurrentCycleExpenses false body =
      .ok { cycleStart := "", cycleEnd := "", expenses := some [],
            error := some "NO_MAIN_INCOME" } ∧
    fetchRecurringExpensesState
      { cycleStart := "", cycleEnd := "", expenses := some [],
        error := some "NO_MAIN_INCOME" } = ⟨[], [], 0⟩ ∧
    (∀ vc : ViewCycleResp, vc.error = some "NO_MAIN_INCOME" →
      fetchViewCycleState vc = none ∧ hasMainIncome (fetchViewCycleState vc) = false) := by
  refine ⟨?_, by rfl, ?_⟩
  · unfold getCurrentCycleExpenses
    rw [herr]
    rfl
  · intro vc hvc
    unfold fetchViewCycleState hasMainIncome
    rw [hvc]
    exact ⟨rfl, rfl⟩

/-- Witness for C5 at the literal NO_MAIN_INCOME body. -/
theorem noMainIncome_witness :
    (CycleBody.error ⟨"", "", none, some "NO_MAIN_INCOME", none⟩ = some "NO_MAIN_INCOME") ∧
    getCurrentCycleExpenses false ⟨"", "", none, some "NO_MAIN_INCOME", none⟩ =
      .ok { cycleStart := "", cycleEnd := "", expenses := some [],
            error := some "NO_MAIN_INCOME" } :=
  ⟨rfl, (noMainIncome_is_displayable_state ⟨"", "", none, some "NO_MAIN_INCOME", none⟩ rfl).1⟩

/-! ## C6 -/

/-- C6: submitting the add-income form with `payCycle = one-time` and
`isMain = true` never reaches `createIncome`: for every form state with
that combination the handler returns a validation error, never a payload
(in particular it is neither silently no-opped nor silently corrected to
`isMain = false`). -/
theorem oneTimeMain_rejected (pf : String → Option ℚ) (st : IncomeForm) (today : ℤ)
    (h1 : st.payCycle = .oneTime) (h2 : st.isMain = true) :
    ∀ d : CreateIncomeData, handleSubmitIncome pf st today ≠ .ok d := by
  intro d
  unfold handleSubmitIncome
  split_ifs with ha hb hc hd
  · simp
  · simp
  · simp
  · simp
  · exact absurd ⟨h1, by simp [h2]⟩ hd

/-- Witness for C6 at a concrete one-time-main form. -/
theorem oneTimeMain_rejected_witness :
    (IncomeForm.payCycle ⟨"Gift", "100", .oneTime, 0, true⟩ = .oneTime) ∧
    handleSubmitIncome pfDemo ⟨"Gift", "100", .oneTime, 0, true⟩ 0 ≠
      .ok ⟨some "Gift", some 100, .oneTime, 0, false⟩ :=
  ⟨rfl, oneTimeMain_rejected pfDemo ⟨"Gift", "100", .oneTime, 0, true⟩ 0 rfl rfl
    ⟨some "Gift", some 100, .oneTime, 0, false⟩⟩
/-! ## C7 -/

/-- C7: for newly created recurring items, a next pay/payment date
strictly before today is rejected with a validation error before any
create mutation (in both add-income modals and in the add-expense modal),
a date equal to today is accepted, and one-time items are exempt from the
check: a one-time income or expense with a past date still submits. -/
theorem pastDate_rules (pf : String → Option ℚ) (today : ℤ) :
    (∀ st : IncomeForm, st.payCycle ≠ .oneTime → st.nextPayDate < today →
      ∀ d, handleSubmitIncome pf st today ≠ .ok d) ∧
    (∀ st : IncomeForm, st.payCycle ≠ .oneTime → st.nextPayDate = today →
      st.name ≠ "" → strTrim st.name ≠ "" →
      st.amount ≠ "" → jsNumLE (pf st.amount) 0 = false →
      handleSubmitIncome pf st today =
        .ok ⟨strOrUndef (strTrim st.name), pf st.amount, st.payCycle, st.nextPayDate, st.isMain⟩) ∧
    (∀ st : IncomeForm, st.payCycle = .oneTime → st.isMain = false →
      st.name ≠ "" → strTrim st.name ≠ "" →
      st.amount ≠ "" → jsNumLE (pf st.amount) 0 = false →
      handleSubmitIncome pf st today =
        .ok ⟨strOrUndef (strTrim st.name), pf st.amount, st.payCycle, st.nextPayDate, false⟩) ∧
    (∀ st : IncomeFormV2, st.incomeType = "recurring" → st.nextPayDate < today →
      ∀ d, handleSubmitIncomeV2 pf st today ≠ .ok d) ∧
    (∀ st : ExpenseForm, st.expenseType = "recurring" → st.nextPaymentDate < today →
      ∀ d, handleSubmitExpense pf st today ≠ .ok d) ∧
    (∀ st : ExpenseForm, st.expenseType = "one-time" →
      st.name ≠ "" → strTrim st.name ≠ "" →
      st.amount ≠ "" → jsNumLE (pf st.amount) 0 = false →
      st.spendFrom ≠ "" → st.category ≠ "" →
      handleSubmitExpense pf st today =
        .ok ⟨strTrim st.name, pf st.amount, st.category, st.spendFrom, st.expenseType,
          strOrUndef (strTrim st.note), none, none, some st.expenseCreatedAt⟩) := by
  refine ⟨?_, ?_, ?_, ?_, ?_, ?_⟩
  · intro st hpc hdate d
    unfold handleSubmitIncome
    split_ifs with ha hb hc hd
    · simp
    · simp
    · simp
    · simp
    · exact absurd ⟨hpc, hdate⟩ hc
  · intro st hpc hdate hn1 hn2 ha1 ha2
    unfold handleSubmitIncome
    rw [if_neg (by push_neg; exact ⟨hn1, hn2⟩),
      if_neg (by rw [ha2]; push_neg; exact ⟨ha1, by simp⟩),
      if_neg (fun hc => absurd hdate (by omega)),
      if_neg (fun hc => hpc hc.1),
      if_neg (fun hc : st.payCycle = .oneTime => hpc hc)]
  · intro st hpc hmain hn1 hn2 ha1 ha2
    unfold handleSubmitIncome
    rw [if_neg (by push_neg; exact ⟨hn1, hn2⟩),
      if_neg (by rw [ha2]; push_neg; exact ⟨ha1, by simp⟩),
      if_neg (fun hc => hc.1 hpc),
      if_neg (fun hc => by rw [hmain] at hc; exact Bool.false_ne_true hc.2),
      if_pos hpc]
  · intro st htype hdate d
    unfold handleSubmitIncomeV2
    split_ifs with ha hb hc hd he
    · simp
    · simp
    · exact absurd ⟨htype, hdate⟩ hb
    · exact absurd ⟨htype, hdate⟩ hb
    · exact absurd ⟨htype, hdate⟩ hb
    · exact absurd ⟨htype, hdate⟩ hb
  · intro st htype hdate d
    unfold handleSubmitExpense
    split_ifs with h1 h2 h3 h4 h5 h6
    · simp
    · simp
    · simp
    · simp
    · simp
    · simp
    all_goals exact absurd ⟨htype, hdate⟩ h6
  · intro st htype hn1 hn2 ha1 ha2 hsf hcat
    have hne : st.expenseType ≠ "recurring" := by rw [htype]; decide
    unfold handleSubmitExpense
    rw [if_neg (by push_neg; exact ⟨hn1, hn2⟩),
      if_neg (by rw [ha2]; push_neg; exact ⟨ha1, by simp⟩),
      if_neg hsf, if_neg hcat,
      if_neg (fun hc => hne hc.1),
      if_neg (fun hc => hne hc.1),
      if_pos htype, if_pos htype, if_pos htype]

/-- Witness for C7 at concrete forms for each of the six rules. -/
theorem pastDate_rules_witness :
    ((-3 : ℤ) < 0 ∧
      ∀ d, handleSubmitIncome pfDemo ⟨"Salary", "100", .monthly, -3, true⟩ 0 ≠ .ok d) ∧
    handleSubmitIncome pfDemo ⟨"Salary", "100", .monthly, 0, true⟩ 0 =
      .ok ⟨some "Salary", some 100, .monthly, 0, true⟩ ∧
    handleSubmitIncome pfDemo ⟨"Gift", "42", .oneTime, -7, false⟩ 0 =
      .ok ⟨some "Gift", some 42, .oneTime, -7, false⟩ ∧
    (∀ d, handleSubmitIncomeV2 pfDemo ⟨"recurring", "Pay", "100", "monthly", true, -1,
      none, 0⟩ 0 ≠ .ok d) ∧
    (∀ d, handleSubmitExpense pfDemo ⟨"Netflix", "42", "wants", "Entertainment",
      "recurring", "", "monthly", -2, 0⟩ 0 ≠ .ok d) ∧
    handleSubmitExpense pfDemo ⟨"Lunch", "42", "needs", "Food", "one-time", "", "monthly",
      0, -9⟩ 0 =
      .ok ⟨"Lunch", some 42, "Food", "needs", "one-time", none, none, none, some (-9)⟩ := by
  refine ⟨⟨by decide, (pastDate_rules pfDemo 0).1
      ⟨"Salary", "100", .monthly, -3, true⟩ (by decide) (by decide)⟩, ?_, ?_, ?_, ?_, ?_⟩
  · exact (pastDate_rules pfDemo 0).2.1 ⟨"Salary", "100", .monthly, 0, true⟩
      (by decide) (by decide) (by decide) (by decide) (by decide) (by decide)
  · exact (pastDate_rules pfDemo 0).2.2.1 ⟨"Gift", "42", .oneTime, -7, false⟩
      (by decide) (by decide) (by decide) (by decide) (by decide) (by decide)
  · exact (pastDate_rules pfDemo 0).2.2.2.1
      ⟨"recurring", "Pay", "100", "monthly", true, -1, none, 0⟩ (by decide) (by decide)
  · exact (pastDate_rules pfDemo 0).2.2.2.2.1
      ⟨"Netflix", "42", "wants", "Entertainment", "recurring", "", "monthly", -2, 0⟩
      (by decide) (by decide)
  · exact (pastDate_rules pfDemo 0).2.2.2.2.2
      ⟨"Lunch", "42", "needs", "Food", "one-time", "", "monthly", 0, -9⟩
      (by decide) (by decide) (by decide) (by decide) (by decide) (by decide) (by decide)

/-! ## C8 -/

/-- C8 (evaluation at the failing input): the amount guard
`!amount || parseFloat(amount) <= 0` does not catch `NaN`, because the
JS comparison `NaN <= 0` is false.  With the non-numeric amount `"abc"`
both creation handlers pass validation and hand `createIncome` /
`createSpending` a payload whose amount is `NaN` (`none`), contradicting
the claim that such input fails fast with a validation error. -/
theorem nan_amount_reaches_mutation :
    handleSubmitIncome pfDemo ⟨"Job", "abc", .monthly, 5, false⟩ 5 =
      .ok ⟨some "Job", none, .monthly, 5, false⟩ ∧
    handleSubmitExpense pfDemo ⟨"Thing", "abc", "needs", "Food", "one-time", "", "monthly",
      5, 5⟩ 5 =
      .ok ⟨"Thing", none, "Food", "needs", "one-time", none, none, none, some 5⟩ := by
  exact ⟨rfl, rfl⟩

/-! ## C9 -/

/-- C9: for the spec-modelled `setMainIncome` mutation, after a successful
`setMainIncome(id)` on a store holding exactly one income with that id,
the store holds exactly one main income, every main income has the target
id, and every other income — in particular any previous holder — is now
stored demoted (`isMain = false`). -/
theorem setMainIncome_atomic (incomes : List IncomeRec) (targetId : String)
    (res : List IncomeRec)
    (huniq : incomes.countP (fun i => i.id = targetId) = 1)
    (hres : setMainIncome incomes targetId = some res) :
    res.countP (fun i => i.isMain) = 1 ∧
    (∀ i ∈ res, i.isMain = true → i.id = targetId) ∧
    (∀ i ∈ incomes, i.id ≠ targetId → { i with isMain := false } ∈ res) := by
  unfold setMainIncome at hres
  split_ifs at hres with hmem
  · rw [Option.some.injEq] at hres
    refine ⟨?_, ?_, ?_⟩
    · rw [← hres, List.countP_map]
      have hcomp : ((fun i : IncomeRec => i.isMain) ∘ fun i : IncomeRec =>
          { i with isMain := decide (i.id = targetId) }) =
          (fun i : IncomeRec => decide (i.id = targetId)) := rfl
      rw [hcomp]
      exact huniq
    · intro i hi him
      rw [← hres] at hi
      obtain ⟨j, hj, rfl⟩ := List.mem_map.mp hi
      simpa using him
    · intro i hi hne
      rw [← hres]
      exact List.mem_map.mpr ⟨i, hi, by simp [hne]⟩

/-- Witness for C9 on a two-income store, promoting the second. -/
theorem setMainIncome_atomic_witness :
    ([⟨"a", none, 5, .monthly, 0, true⟩, ⟨"b", none, 7, .weekly, 0, false⟩] :
        List IncomeRec).countP (fun i => i.id = "b") = 1 ∧
    setMainIncome [⟨"a", none, 5, .monthly, 0, true⟩, ⟨"b", none, 7, .weekly, 0, false⟩] "b" =
      some [⟨"a", none, 5, .monthly, 0, false⟩, ⟨"b", none, 7, .weekly, 0, true⟩] ∧
    ([⟨"a", none, 5, .monthly, 0, false⟩, ⟨"b", none, 7, .weekly, 0, true⟩] :
        List IncomeRec).countP (fun i => i.isMain) = 1 ∧
    (∀ i ∈ ([⟨"a", none, 5, .monthly, 0, false⟩, ⟨"b", none, 7, .weekly, 0, true⟩] :
        List IncomeRec), i.isMain = true → i.id = "b") := by
  refine ⟨by decide, by decide, ?_, ?_⟩
  · exact (setMainIncome_atomic
      [⟨"a", none, 5, .monthly, 0, true⟩, ⟨"b", none, 7, .weekly, 0, false⟩] "b"
      [⟨"a", none, 5, .monthly, 0, false⟩, ⟨"b", none, 7, .weekly, 0, true⟩]
      (by decide) (by decide)).1
  · exact (setMainIncome_atomic
      [⟨"a", none, 5, .monthly, 0, true⟩, ⟨"b", none, 7, .weekly, 0, false⟩] "b"
      [⟨"a", none, 5, .monthly, 0, false⟩, ⟨"b", none, 7, .weekly, 0, true⟩]
      (by decide) (by decide)).2.1
end YooBudget
